import Mathlib

/-!
# DappLib: dispatcher, multihash codec and string helpers

A shallow embedding of `packages/dapplib/src/lib/dapp-lib.js`.

* JavaScript values are the inductive type `JSVal`; objects are finite records of
  string-keyed data properties listed in enumeration order, with the prototype
  `Object.prototype` or an explicit one.
* JavaScript strings are Lean strings, one `Char` per UTF-16 code unit (characters of the Basic
  Multilingual Plane), in the operations whose texts are identifiers, hexadecimal text and
  character codes up to 255. `toCondensed` takes any string: there a string is the list of its
  UTF-16 code units, `JSString`.
* `async` functions are state-passing functions `World → Except JSError α × World`: a rejected
  promise is `Except.error`, and the world records the configuration singleton and every call
  made to an external collaborator, in order.
* The collaborators that are not part of the file (`Blockchain`, `ipfs-http-client`, `bs58`,
  the builtin `Number`) are the fields of `Env`.
-/

set_option autoImplicit false

namespace DappLib

/-! ## JavaScript values -/

/-- JavaScript values, as far as the library inspects them. `obj props` is an ordinary object
with the own enumerable data properties `props`, in enumeration order, and the prototype
`Object.prototype`; `objProto props proto` is such an object with the prototype `proto`, an
object or `null`. -/
inductive JSVal where
  | undefined
  | null
  | bool (b : Bool)
  | num (n : Int)
  | nan
  | str (s : String)
  | arr (xs : List JSVal)
  | obj (props : List (String × JSVal))
  | objProto (props : List (String × JSVal)) (proto : JSVal)

/-- Exceptions (rejected promises). -/
inductive JSError where
  | decodeError (msg : String)
  | gatewayError (msg : String)
  | rangeError (msg : String)
  | typeError (msg : String)
  deriving DecidableEq, Repr

deriving instance DecidableEq for Except

/-- JavaScript truthiness (`ToBoolean`). -/
def JSVal.truthy : JSVal → Bool
  | .undefined => false
  | .null => false
  | .bool b => b
  | .num n => n != 0
  | .nan => false
  | .str s => s != ""
  | .arr _ => true
  | .obj _ => true
  | .objProto _ _ => true

/-- The operator `a || b`. -/
def JSVal.or (a b : JSVal) : JSVal :=
  if a.truthy then a else b

/-! ## Byte buffers and hexadecimal text -/

/-- A Node `Buffer`: a sequence of bytes. -/
abbrev Buffer := List (Fin 256)

/-- The lower-case hexadecimal digit of a value below 16. -/
def hexDigit (n : Nat) : Char :=
  if n < 10 then Char.ofNat (48 + n) else Char.ofNat (87 + n)

/-- Two hexadecimal digits of one byte. -/
def byteToHex (b : Fin 256) : List Char :=
  [hexDigit (b.val / 16), hexDigit (b.val % 16)]

/-- The method `Buffer.prototype.toString('hex')`. -/
def Buffer.toHex (b : Buffer) : String :=
  String.mk (b.flatMap byteToHex)

/-- Membership in `0-9a-f`. -/
def isLowerHex (c : Char) : Bool :=
  c.isDigit || (decide ('a' ≤ c) && decide (c ≤ 'f'))

/-! ## Reference instance of the external base-58 decoder

The package `bs58` is not part of the repository; the definitions below take the decoder as a
parameter. `bs58.decode` is the standard decoder over the Bitcoin alphabet and serves as the
concrete instance at which the statements are evaluated. -/

namespace bs58

/-- The Bitcoin base-58 alphabet. -/
def ALPHABET : List Char :=
  "123456789ABCDEFGHJKLMNPQRSTUVWXYZabcdefghijkmnopqrstuvwxyz".data

/-- Position of a character in the alphabet. -/
def digit? (c : Char) : Option Nat :=
  let i := ALPHABET.indexOf c
  if i < 58 then some i else none

/-- The digits of the whole input, when every character is in the alphabet. -/
def digits? (s : List Char) : Option (List Nat) :=
  s.mapM digit?

/-- Big-endian bytes of a number, at most `fuel` of them. -/
def toBytes : Nat → Nat → List (Fin 256) → List (Fin 256)
  | 0, _, acc => acc
  | fuel + 1, n, acc =>
    if n = 0 then acc else toBytes fuel (n / 256) (Fin.ofNat (n % 256) :: acc)

/-- Base-58 decoding: each leading `1` is a zero byte, the rest is a big-endian number. -/
def decode (source : String) : Except JSError Buffer :=
  match digits? source.data with
  | none => .error (.decodeError "Non-base58 character")
  | some ds =>
    let zeroes := (ds.takeWhile (· == 0)).length
    let n := ds.foldl (fun acc d => acc * 58 + d) 0
    .ok (List.replicate zeroes (0 : Fin 256) ++ toBytes ds.length n [])

end bs58

/-! ## Multihash codec -/

/-- The object returned by `_decodeMultihash`; a missing byte reads as `undefined` (`none`). -/
structure Multihash where
  digest : String
  hashFunction : Option (Fin 256)
  digestLength : Option (Fin 256)
  deriving DecidableEq, Repr

/-- `DappLib._decodeMultihash`, over the decoder `bs58_decode`. -/
def _decodeMultihash (bs58_decode : String → Except JSError Buffer) (multihash : String) :
    Except JSError Multihash :=
  match bs58_decode multihash with
  | .error e => .error e
  | .ok decoded =>
    .ok { digest := "0x" ++ Buffer.toHex (decoded.drop 2)
          hashFunction := decoded.get? 0
          digestLength := decoded.get? 1 }

/-! ## Requests, results and the external collaborators -/

/-- The `ipfs` entry of the configuration. -/
structure IpfsConfig where
  host : String
  protocol : String
  port : Nat
  deriving DecidableEq, Repr

/-- The configuration object of `dapp-config.json`: the `ipfs` entry (possibly absent) and the
remaining settings. -/
structure DappConfig where
  ipfs : Option IpfsConfig
  settings : List (String × String)
  deriving DecidableEq, Repr

/-- The `roles` of a request; an absent role is `none`. -/
structure Roles where
  proposer : Option String
  authorizers : Option (List String)
  deriving DecidableEq, Repr

/-- The first argument of `Blockchain.get` and `Blockchain.post`. -/
structure Descriptor where
  config : DappConfig
  imports : List (String × String)
  roles : Roles
  deriving DecidableEq, Repr

/-- The ledger types of `@onflow/types` used by the library. -/
inductive FlowType where
  | String
  | UInt64
  | Array (t : FlowType)
  deriving DecidableEq, Repr

/-- One entry of the argument object of a gateway call: a bare value, or a `{value, type}` pair. -/
inductive Arg where
  | plain (value : JSVal)
  | typed (value : JSVal) (type : FlowType)

/-- A browser `File`. -/
structure File where
  name : String
  content : List (Fin 256)
  deriving DecidableEq, Repr

/-- An element of `filesToUpload`. -/
structure FileToUpload where
  path : String
  content : File
  deriving DecidableEq, Repr

/-- A progress callback, by the values it writes to the console for a byte count. -/
abbrev ProgressCallback := Nat → List JSVal

/-- The options of `ipfs.add`. -/
structure AddOptions where
  wrapWithDirectory : Bool
  pin : Bool
  progress : ProgressCallback

/-- A content identifier object. -/
structure CID where
  string : String
  deriving DecidableEq, Repr

/-- An entry of the stream returned by `ipfs.add`. -/
structure AddEntry where
  path : String
  cid : CID
  size : Nat
  deriving DecidableEq, Repr

/-- The value `Object.assign({}, result, DappLib._decodeMultihash(result.cid.string))`. -/
structure UploadResult extends AddEntry, Multihash
  deriving DecidableEq, Repr

/-- The calls made to the external collaborators. -/
inductive Call where
  | ipfsClient (options : Option IpfsConfig)
  | ipfsAdd (filesToUpload : List FileToUpload) (options : AddOptions)
  | post (request : Descriptor) (action : String) (args : Option (List (String × Arg)))
  | get (request : Descriptor) (action : String) (args : Option (List (String × Arg)))
  | handleEvent (config : DappConfig) (contract : JSVal) (params : JSVal) (event : String)
  | consoleLog (label : String) (file : UploadResult)

/-- What `Blockchain.get` and `Blockchain.post` resolve to. -/
structure GatewayResult where
  callData : JSVal

/-- The external collaborators. Each answer may depend on the calls made so far. The stream of
`ipfs.add` is the list of entries it yields, followed by the error it throws, if any; the
progress reports the store makes while adding are its own and are not logged. -/
structure Env where
  bs58_decode : String → Except JSError Buffer
  ipfsClient : List Call → Option IpfsConfig → Except JSError Unit
  ipfsAdd : List Call → List FileToUpload → AddOptions → List AddEntry × Option JSError
  post : List Call → Descriptor → String → Option (List (String × Arg)) →
    Except JSError GatewayResult
  get : List Call → Descriptor → String → Option (List (String × Arg)) →
    Except JSError GatewayResult
  Number : JSVal → JSVal

/-- The mutable state: the configuration singleton and the log of external calls. -/
structure World where
  dappConfig : DappConfig
  calls : List Call

/-- Append a call to the log. -/
def World.record (w : World) (c : Call) : World :=
  { w with calls := w.calls ++ [c] }

/-- The submissions (`Blockchain.post` calls) of a log, in order. -/
def submissions : List Call → List (Descriptor × String × Option (List (String × Arg)))
  | [] => []
  | .post request action args :: rest => (request, action, args) :: submissions rest
  | _ :: rest => submissions rest

/-- The Content Store calls of a log: client creations and `add` calls. -/
def storeCalls : List Call → List Call
  | [] => []
  | .ipfsClient options :: rest => .ipfsClient options :: storeCalls rest
  | .ipfsAdd files options :: rest => .ipfsAdd files options :: storeCalls rest
  | _ :: rest => storeCalls rest

namespace Blockchain

/-- The call `await Blockchain.post(request, action, args)`. -/
def post (env : Env) (request : Descriptor) (action : String)
    (args : Option (List (String × Arg))) (w : World) : Except JSError GatewayResult × World :=
  (env.post w.calls request action args, w.record (.post request action args))

/-- The call `await Blockchain.get(request, action, args)`. -/
def get (env : Env) (request : Descriptor) (action : String)
    (args : Option (List (String × Arg))) (w : World) : Except JSError GatewayResult × World :=
  (env.get w.calls request action args, w.record (.get request action args))

end Blockchain

/-- The data property `key` of an object, own or inherited from its prototypes. -/
def JSVal.dataProperty : JSVal → String → Option JSVal
  | .obj props, key => props.lookup key
  | .objProto props proto, key =>
    match props.lookup key with
    | some v => some v
    | none => proto.dataProperty key
  | _, _ => none

/-- The member access `callData.transactionId`. -/
def JSVal.transactionId : JSVal → Except JSError JSVal
  | .undefined => .error (.typeError "Cannot read properties of undefined")
  | .null => .error (.typeError "Cannot read properties of null")
  | .obj props => .ok ((props.lookup "transactionId").getD .undefined)
  | .objProto props proto =>
    .ok (((JSVal.objProto props proto).dataProperty "transactionId").getD .undefined)
  | _ => .ok .undefined

/-! ## Result envelopes -/

def DAPP_RESULT_TX_HASH : String := "tx-hash"

def DAPP_RESULT_ARRAY : String := "array"

def DAPP_RESULT_OBJECT : String := "object"

def DAPP_RESULT_ERROR : String := "error"

/-- The object returned by the operations; an absent member is `none`. -/
structure Envelope where
  event : Option String := none
  type : String
  label : String
  result : JSVal
  formatter : Option (List String) := none

/-- The argument `data` of the operations. -/
structure Data where
  account : String
  admin : String
  voter : String
  ballotOwner : String
  proposalIndex : JSVal
  files : List File

/-- `DappLib.getConfig`. -/
def getConfig (w : World) : DappConfig :=
  w.dappConfig

/-! ## Operations -/

/-- `DappLib.initializeAccount`. -/
def initializeAccount (env : Env) (data : Data) (w : World) : Except JSError Envelope × World :=
  match Blockchain.post env
      { config := getConfig w
        imports := [("DappState", data.account)]
        roles := { proposer := some data.account, authorizers := none } }
      "basic_nft_initializeAccount" none w with
  | (.error e, w1) => (.error e, w1)
  | (.ok result, w1) =>
    match result.callData.transactionId with
    | .error e => (.error e, w1)
    | .ok transactionId =>
      (.ok { type := DAPP_RESULT_TX_HASH, label := "Transaction Hash", result := transactionId },
        w1)

/-- `DappLib.getIDs`. -/
def getIDs (env : Env) (data : Data) (w : World) : Except JSError Envelope × World :=
  match Blockchain.get env
      { config := getConfig w
        imports := [("DappState", data.account)]
        roles := { proposer := some data.account, authorizers := none } }
      "basic_nft_getIDs" (some [("account", .plain (.str ("0x" ++ data.account)))]) w with
  | (.error e, w1) => (.error e, w1)
  | (.ok result, w1) =>
    (.ok { type := DAPP_RESULT_ARRAY, label := "NFT IDs"
           result := result.callData.or (.arr []) }, w1)

/-- The loop `for await (const result of ipfs.add(...))` of `ipfsUpload`: `entries` is what the
stream still yields, `failure` the error it throws at its end, if any. -/
def ipfsUpload.collect (bs58_decode : String → Except JSError Buffer) (wrapWithDirectory : Bool) :
    List AddEntry → Option JSError → List UploadResult → Except JSError (List UploadResult)
  | [], none, results => .ok results
  | [], some e, _ => .error e
  | result :: rest, failure, results =>
    if wrapWithDirectory && result.path != "" then
      ipfsUpload.collect bs58_decode wrapWithDirectory rest failure results
    else
      match _decodeMultihash bs58_decode result.cid.string with
      | .error e => .error e
      | .ok decoded =>
        ipfsUpload.collect bs58_decode wrapWithDirectory rest failure
          (results ++ [{ toAddEntry := result, toMultihash := decoded }])

/-- `DappLib.ipfsUpload`. -/
def ipfsUpload (env : Env) (config : DappConfig) (files : List File) (wrapWithDirectory : Bool)
    (progressCallback : ProgressCallback) (w : World) :
    Except JSError (List UploadResult) × World :=
  let results : List UploadResult := []
  if files.length < 1 then
    (.ok results, w)
  else
    let w1 := w.record (.ipfsClient config.ipfs)
    match env.ipfsClient w.calls config.ipfs with
    | .error e => (.error e, w1)
    | .ok _ =>
      let filesToUpload : List FileToUpload :=
        files.map (fun file => { path := file.name, content := file })
      let options : AddOptions :=
        { wrapWithDirectory := wrapWithDirectory, pin := true, progress := progressCallback }
      let stream := env.ipfsAdd w1.calls filesToUpload options
      (ipfsUpload.collect env.bs58_decode wrapWithDirectory stream.1 stream.2 results,
        w1.record (.ipfsAdd filesToUpload options))

/-- The loop of `initializeProposals` over `ipfsResult`: it logs each file and pushes its cid
string. -/
def initializeProposals.collect (ipfsResult : List UploadResult) (w : World) :
    List String × World :=
  ipfsResult.foldl
    (fun acc file => (acc.1 ++ [file.cid.string], acc.2.record (.consoleLog "IPFS file" file)))
    ([], w)

/-- `DappLib.initializeProposals`. The object `config` is the configuration singleton itself, so
the assignment to `config.ipfs` changes the singleton. -/
def initializeProposals (env : Env) (data : Data) (w : World) :
    Except JSError Envelope × World :=
  let folder := true
  let config : DappConfig :=
    { getConfig w with
      ipfs := some { host := "ipfs.infura.io", protocol := "https", port := 5001 } }
  let w0 : World := { w with dappConfig := config }
  match ipfsUpload env config data.files folder (fun bytes => [.num bytes]) w0 with
  | (.error e, w1) => (.error e, w1)
  | (.ok ipfsResult, w1) =>
    let (proposals, w2) := initializeProposals.collect ipfsResult w1
    match Blockchain.post env
        { config := config
          imports := [("DappState", data.admin)]
          roles := { proposer := some data.admin, authorizers := none } }
        "ballot_initializeProposals"
        (some [("proposals", .typed (.arr (proposals.map .str)) (.Array .String))]) w2 with
    | (.error e, w3) => (.error e, w3)
    | (.ok result, w3) =>
      match result.callData.transactionId with
      | .error e => (.error e, w3)
      | .ok transactionId =>
        (.ok { type := DAPP_RESULT_TX_HASH, label := "Transaction Hash"
               result := transactionId }, w3)

/-- `DappLib.issueBallot`. -/
def issueBallot (env : Env) (data : Data) (w : World) : Except JSError Envelope × World :=
  match Blockchain.post env
      { config := getConfig w
        imports := [("DappState", data.admin)]
        roles := { proposer := some data.admin, authorizers := some [data.admin, data.voter] } }
      "ballot_issueBallot" none w with
  | (.error e, w1) => (.error e, w1)
  | (.ok result, w1) =>
    match result.callData.transactionId with
    | .error e => (.error e, w1)
    | .ok transactionId =>
      (.ok { type := DAPP_RESULT_TX_HASH, label := "Transaction Hash", result := transactionId },
        w1)

/-- `DappLib.vote`. -/
def vote (env : Env) (data : Data) (w : World) : Except JSError Envelope × World :=
  match Blockchain.post env
      { config := getConfig w
        imports := [("DappState", data.voter)]
        roles := { proposer := some data.voter, authorizers := none } }
      "ballot_vote"
      (some [("proposalVotes",
        .typed (.arr [env.Number data.proposalIndex]) (.Array .UInt64))]) w with
  | (.error e, w1) => (.error e, w1)
  | (.ok result, w1) =>
    match result.callData.transactionId with
    | .error e => (.error e, w1)
    | .ok transactionId =>
      (.ok { type := DAPP_RESULT_TX_HASH, label := "Transaction Hash", result := transactionId },
        w1)

/-- `DappLib.getProposalList`. -/
def getProposalList (env : Env) (data : Data) (w : World) : Except JSError Envelope × World :=
  match Blockchain.get env
      { config := getConfig w
        imports := [("DappState", data.ballotOwner)]
        roles := { proposer := none, authorizers := none } }
      "ballot_proposalList" none w with
  | (.error e, w1) => (.error e, w1)
  | (.ok result, w1) =>
    (.ok { type := DAPP_RESULT_ARRAY, label := "Proposals", result := result.callData
           formatter := some ["Text-20-5"] }, w1)

/-! ## Event delivery -/

/-- The test `reg.test(key)` for the expression `^\\d+$`: a non-empty run of decimal digits. -/
def onlyDigits (key : String) : Bool :=
  key.data != [] && key.data.all Char.isDigit

/-- The keys visited by `for (let key in a)`: the own keys, then the inherited keys that no own
key shadows. -/
def JSVal.forInKeys : JSVal → List String
  | .obj props => props.map (·.1)
  | .objProto props proto =>
    props.map (·.1) ++ proto.forInKeys.filter (fun k => !(props.map (·.1)).contains k)
  | .arr xs => (List.range xs.length).map toString
  | .str s => (List.range s.length).map toString
  | _ => []

/-- The member access `a[key]` for a key of the properties of `a`, or `length`. -/
def JSVal.member : JSVal → String → JSVal
  | .obj props, key => (props.lookup key).getD .undefined
  | .objProto props proto, key =>
    match props.lookup key with
    | some v => v
    | none => proto.member key
  | .arr xs, key =>
    if key == "length" then .num xs.length
    else match key.toNat? with
      | some i => if toString i == key then xs.getD i .undefined else .undefined
      | none => .undefined
  | .str s, key =>
    if key == "length" then .num s.length
    else match key.toNat? with
      | some i =>
        if toString i == key then ((s.data.get? i).map (fun c => JSVal.str (String.mk [c]))).getD
          .undefined
        else .undefined
      | none => .undefined
  | _, _ => .undefined

/-- Creation or update of the own data property `key`. -/
def setProp : List (String × JSVal) → String → JSVal → List (String × JSVal)
  | [], key, value => [(key, value)]
  | (k, x) :: rest, key, value =>
    if k == key then (k, value) :: rest else (k, x) :: setProp rest key value

/-- The values the setter of `__proto__` installs as a prototype: objects and `null`. -/
def JSVal.isObjectOrNull : JSVal → Bool
  | .null => true
  | .arr _ => true
  | .obj _ => true
  | .objProto _ _ => true
  | _ => false

/-- Whether the search for `__proto__` along the prototypes, from `proto` on, finds no data
property and so ends at the accessor of `Object.prototype`. -/
def JSVal.reachesProtoAccessor : JSVal → Bool
  | .null => false
  | .obj props => (props.lookup "__proto__").isNone
  | .objProto props proto => (props.lookup "__proto__").isNone && proto.reachesProtoAccessor
  | _ => true

/-- The object `newObj` while it is built: its own properties and the prototype that the setter
of `__proto__` has installed, if it has (`none`: the prototype is still `Object.prototype`). -/
structure NewObject where
  props : List (String × JSVal)
  proto : Option JSVal

/-- The object `{}`. -/
def NewObject.empty : NewObject :=
  { props := [], proto := none }

/-- The object as a value. -/
def NewObject.toJSVal (o : NewObject) : JSVal :=
  match o.proto with
  | none => .obj o.props
  | some proto => .objProto o.props proto

/-- Whether an assignment to `__proto__` on the object runs the setter inherited from
`Object.prototype`: the object has no own property of that name and none of its prototypes has a
data property of that name. -/
def NewObject.runsProtoSetter (o : NewObject) : Bool :=
  (o.props.lookup "__proto__").isNone &&
    (match o.proto with
     | none => true
     | some proto => proto.reachesProtoAccessor)

/-- The assignment `newObj[key] = value`. Every key creates or updates an own property, except
`__proto__` while the setter of `Object.prototype` is inherited: the setter makes an object or
`null` the prototype, ignores any other value, and creates no property. -/
def NewObject.assign (o : NewObject) (key : String) (value : JSVal) : NewObject :=
  if key == "__proto__" && o.runsProtoSetter then
    if value.isObjectOrNull then { o with proto := some value } else o
  else
    { o with props := setProp o.props key value }

/-- The loop of `getObjectNamedProperties` over the keys still to visit. -/
def getObjectNamedProperties.loop (a : JSVal) (keys : List String) (newObj : NewObject) :
    NewObject :=
  keys.foldl
    (fun newObj key => if !onlyDigits key then newObj.assign key (a.member key) else newObj)
    newObj

/-- `DappLib.getObjectNamedProperties`. -/
def getObjectNamedProperties (a : JSVal) : JSVal :=
  (getObjectNamedProperties.loop a a.forInKeys NewObject.empty).toJSVal

/-- The function `(error, result) => ...` handed to `Blockchain.handleEvent` by
`addEventHandler`; `callback` acts on a state `σ` of the caller. -/
def addEventHandler.handler {σ : Type} (event : String) (callback : Envelope → σ → σ)
    (error result : JSVal) : σ → σ :=
  if error.truthy then
    callback
      { event := some event, type := DAPP_RESULT_ERROR, label := "Error Message", result := error }
  else
    callback
      { event := some event, type := DAPP_RESULT_OBJECT, label := "Event " ++ event
        result := getObjectNamedProperties result }

/-- `DappLib.addEventHandler`: the registration with the gateway. -/
def addEventHandler (contract : JSVal) (event : String) (params : JSVal) (w : World) : World :=
  w.record (.handleEvent (getConfig w) contract (params.or (.obj [])) event)

/-! ## Text helpers -/

/-- The predicate `str.startsWith(search)`. -/
def startsWith (str search : String) : Bool :=
  search.data.isPrefixOf str.data

/-- One step of the loop of `fromAscii`: the digits of `code.toString(16)`, padded to two. -/
def fromAscii.step (hex : List Char) (c : Char) : List Char :=
  let n := Nat.toDigits 16 c.toNat
  hex ++ (if n.length < 2 then '0' :: n else n)

/-- `DappLib.fromAscii`. A negative count makes `'0'.repeat` throw a `RangeError`. -/
def fromAscii (str : String) (padding : Nat) : Except JSError String :=
  if startsWith str "0x" || padding == 0 then
    .ok str
  else
    let str := if str.length > padding then String.mk (str.data.take padding) else str
    let hex := str.data.foldl fromAscii.step "0x".data
    let count : Int := (padding : Int) * 2 - (hex.length : Int) + 2
    if count < 0 then .error (.rangeError "Invalid count value")
    else .ok (String.mk (hex ++ List.replicate count.toNat '0'))

/-- White space skipped by `parseInt`. -/
def isStrWhiteSpace (c : Char) : Bool :=
  let n := c.toNat
  n == 0x9 || n == 0xA || n == 0xB || n == 0xC || n == 0xD || n == 0x20 || n == 0xA0 ||
    n == 0x1680 || (0x2000 ≤ n && n ≤ 0x200A) || n == 0x2028 || n == 0x2029 || n == 0x202F ||
    n == 0x205F || n == 0x3000 || n == 0xFEFF

/-- The value of a hexadecimal digit. -/
def hexValue? (c : Char) : Option Nat :=
  if '0' ≤ c ∧ c ≤ '9' then some (c.toNat - 48)
  else if 'a' ≤ c ∧ c ≤ 'f' then some (c.toNat - 87)
  else if 'A' ≤ c ∧ c ≤ 'F' then some (c.toNat - 55)
  else none

/-- The sign read by `parseInt` and the text after it. -/
def parseInt16.sign : List Char → Int × List Char
  | '-' :: rest => (-1, rest)
  | '+' :: rest => (1, rest)
  | s => (1, s)

/-- Removal of a leading `0x` or `0X`. -/
def parseInt16.strip : List Char → List Char
  | '0' :: 'x' :: rest => rest
  | '0' :: 'X' :: rest => rest
  | s => s

/-- The call `parseInt(s, 16)`; `none` is `NaN`. -/
def parseInt16 (s : List Char) : Option Int :=
  let (sign, rest) := parseInt16.sign (s.dropWhile isStrWhiteSpace)
  let z := (parseInt16.strip rest).takeWhile (fun c => (hexValue? c).isSome)
  if z.isEmpty then none
  else some (sign * (z.foldl (fun acc c => acc * 16 + (hexValue? c).getD 0) 0 : Nat))

/-- `String.fromCharCode(code)`: the code unit `ToUint16(code)`. -/
def fromCharCode : Option Int → Char
  | none => Char.ofNat 0
  | some code => Char.ofNat (code % 65536).toNat

/-- One turn of the loop of `toAscii` on the text `hex.substr(i, 2)`. -/
def toAscii.step (str : List Char) (pair : List Char) : List Char :=
  let code := parseInt16 pair
  if code = some 0 then str else str ++ [fromCharCode code]

/-- The loop of `toAscii` over the text from position `i` on. -/
def toAscii.loop : List Char → List Char → List Char
  | [], str => str
  | [a], str => toAscii.step str [a]
  | a :: b :: rest, str => toAscii.loop rest (toAscii.step str [a, b])

/-- `DappLib.toAscii`. -/
def toAscii (hex : String) : String :=
  let i := if hex.data.take 2 == "0x".data then 2 else 0
  String.mk (toAscii.loop (hex.data.drop i) [])

/-- A string as the sequence of its UTF-16 code units, which is what `length` and `substr`
count; a code unit may be a surrogate, paired or not. -/
abbrev JSString := List (Fin 65536)

/-- The code units of a character: one, or a surrogate pair above `0xFFFF`. -/
def utf16Char (c : Char) : List (Fin 65536) :=
  if c.toNat < 0x10000 then
    [Fin.ofNat c.toNat]
  else
    [Fin.ofNat (0xD800 + (c.toNat - 0x10000) / 0x400),
      Fin.ofNat (0xDC00 + (c.toNat - 0x10000) % 0x400)]

/-- The code units of a text. -/
def utf16 (s : String) : JSString :=
  s.data.flatMap utf16Char

/-- The method `s.substr(start, length)`: a negative `start` counts from the end of the string,
and the text is cut at the end of the string. -/
def substr (s : JSString) (start : Int) (length : Nat) : JSString :=
  let size := s.length
  let first := if start < 0 then ((size : Int) + start).toNat else min start.toNat size
  (s.drop first).take length

/-- `DappLib.toCondensed`, for a string `s` and numbers `begin` and `end`; the result
`undefined` is `none`. -/
def toCondensed (s : JSString) (begin end_ : Nat) : Option JSString :=
  if s.isEmpty then
    none
  else if s.length != 0 && decide (s.length ≤ begin + end_) then
    some s
  else if end_ != 0 then
    some (substr s 0 begin ++ utf16 "..." ++ substr s ((s.length : Int) - (end_ : Int)) end_)
  else
    some (substr s 0 begin ++ utf16 "...")

/-! ## A concrete setting

A store that answers every `add` with one entry per file and, when asked to wrap, one more entry
with the empty path for the directory; a gateway that accepts every submission and has no data
for queries. -/

/-- A store that yields an entry per file and the directory entry last. -/
def sampleAdd (_ : List Call) (files : List FileToUpload) (options : AddOptions) :
    List AddEntry × Option JSError :=
  (files.map (fun f =>
      { path := f.path, cid := ⟨"QmYwAPJzv5CZsnA625s3Xf2nemtYgPpHdWEz79ojWnPbdG"⟩
        size := f.content.content.length }) ++
    (if options.wrapWithDirectory then
      [{ path := "", cid := ⟨"QmT78zSuBmuS4z925WZfrqQ1qHaJ56DQaTfyMUF7F8ff5o"⟩, size := 0 }]
    else []), none)

def sampleEnv : Env where
  bs58_decode := bs58.decode
  ipfsClient := fun _ _ => .ok ()
  ipfsAdd := sampleAdd
  post := fun _ _ _ _ => .ok { callData := .obj [("transactionId", .str "f00d")] }
  get := fun _ _ _ _ => .ok { callData := .undefined }
  Number := fun v => v

/-- A store whose upload fails before yielding anything. -/
def failingEnv : Env :=
  { sampleEnv with ipfsAdd := fun _ _ _ => ([], some (.gatewayError "store unreachable")) }

def sampleWorld : World where
  dappConfig := { ipfs := none, settings := [("httpUri", "http://localhost:8080")] }
  calls := []

def sampleData : Data where
  account := "01cf0e2f2f715450"
  admin := "01cf0e2f2f715450"
  voter := "179b6b1cb6755e31"
  ballotOwner := "01cf0e2f2f715450"
  proposalIndex := .num 1
  files := [{ name := "a.txt", content := [104, 105] }, { name := "b.txt", content := [33] }]

/-! # Theorems -/

/-! ## Upload results -/

theorem collect_ok_iff (dec : String → Except JSError Buffer) (wrap : Bool) :
    ∀ (entries : List AddEntry) (acc out : List UploadResult),
      ipfsUpload.collect dec wrap entries none acc = .ok out ↔
        ∃ rs, out = acc ++ rs ∧
          rs.map (·.toAddEntry) = entries.filter (fun r => !wrap || r.path == "") ∧
          ∀ r ∈ rs, _decodeMultihash dec r.cid.string = .ok r.toMultihash := by
  intro entries
  induction entries with
  | nil =>
    intro acc out
    simp only [ipfsUpload.collect, Except.ok.injEq, List.filter_nil, List.map_eq_nil_iff]
    constructor
    · intro h
      exact ⟨[], by simp [h], rfl, by simp⟩
    · rintro ⟨rs, h1, h2, -⟩
      simp [h1, h2]
  | cons e rest ih =>
    intro acc out
    by_cases hk : (wrap && e.path != "") = true
    · have hf : (!wrap || e.path == "") = false := by
        cases wrap <;> simp_all
      simp only [ipfsUpload.collect, hk, if_true, List.filter_cons, hf]
      simpa using ih acc out
    · have hf : (!wrap || e.path == "") = true := by
        cases wrap <;> simp_all
      simp only [ipfsUpload.collect, hk, List.filter_cons, hf, if_true]
      cases hd : _decodeMultihash dec e.cid.string with
      | error err =>
        simp only [Bool.false_eq_true, if_false]
        constructor
        · intro h
          cases h
        · rintro ⟨rs, -, h2, h3⟩
          cases rs with
          | nil => simp at h2
          | cons r rs' =>
            simp only [List.map_cons, List.cons.injEq] at h2
            have := h3 r (List.mem_cons_self _ _)
            rw [show r.cid = e.cid by rw [← h2.1], hd] at this
            cases this
      | ok d =>
        simp only [Bool.false_eq_true, if_false]
        rw [ih]
        constructor
        · rintro ⟨rs, h1, h2, h3⟩
          refine ⟨{ toAddEntry := e, toMultihash := d } :: rs, by simp [h1], by simp [h2], ?_⟩
          intro r hr
          rcases List.mem_cons.mp hr with rfl | hr
          · exact hd
          · exact h3 r hr
        · rintro ⟨rs, h1, h2, h3⟩
          cases rs with
          | nil => simp at h2
          | cons r rs' =>
            simp only [List.map_cons, List.cons.injEq] at h2
            have hr := h3 r (List.mem_cons_self _ _)
            rw [show r.cid = e.cid by rw [← h2.1], hd] at hr
            have hrd : r = { toAddEntry := e, toMultihash := d } := by
              cases r
              simp only [UploadResult.mk.injEq]
              exact ⟨h2.1, (Except.ok.inj hr).symm⟩
            refine ⟨rs', by simp [h1, hrd], h2.2, ?_⟩
            intro x hx
            exact h3 x (List.mem_cons_of_mem _ hx)

/-- C6: with an empty file list `ipfsUpload` returns the empty sequence and leaves the world as
it was: no client is created and `add` is not called, for every configuration, flag and
progress callback. -/
theorem ipfsUpload_empty (env : Env) (config : DappConfig) (wrapWithDirectory : Bool)
    (progressCallback : ProgressCallback) (w : World) :
    ipfsUpload env config [] wrapWithDirectory progressCallback w = (.ok [], w) ∧
      storeCalls (ipfsUpload env config [] wrapWithDirectory progressCallback w).2.calls =
        storeCalls w.calls := by
  constructor <;> rfl

/-- C1 (amended): when the client is created and the stream of `ipfs.add` ends without an error,
`ipfsUpload` succeeds with `results` exactly when `results` are, in stream order, the entries
with the empty path if `wrapWithDirectory` is set, and all the entries if it is not, each merged
with the decoding of its cid string. -/
theorem ipfsUpload_result_set (env : Env) (config : DappConfig) (files : List File)
    (wrapWithDirectory : Bool) (progressCallback : ProgressCallback) (w : World)
    (entries : List AddEntry) (results : List UploadResult)
    (hfiles : files ≠ [])
    (hclient : env.ipfsClient w.calls config.ipfs = .ok ())
    (hstream : env.ipfsAdd (w.record (.ipfsClient config.ipfs)).calls
        (files.map (fun file => { path := file.name, content := file }))
        { wrapWithDirectory := wrapWithDirectory, pin := true, progress := progressCallback } =
      (entries, none)) :
    (ipfsUpload env config files wrapWithDirectory progressCallback w).1 = .ok results ↔
      (results.map (·.toAddEntry) =
          entries.filter (fun r => !wrapWithDirectory || r.path == "") ∧
        ∀ r ∈ results, _decodeMultihash env.bs58_decode r.cid.string = .ok r.toMultihash) := by
  have hlen : ¬ files.length < 1 := by
    cases files with
    | nil => exact absurd rfl hfiles
    | cons f fs => simp
  simp only [ipfsUpload, hlen, if_false, hclient, hstream]
  rw [collect_ok_iff]
  constructor
  · rintro ⟨rs, h1, h2, h3⟩
    simp only [List.nil_append] at h1
    subst h1
    exact ⟨h2, h3⟩
  · rintro ⟨h2, h3⟩
    exact ⟨results, by simp, h2, h3⟩

theorem ipfsUpload_result_set_witness :
    (ipfsUpload sampleEnv sampleWorld.dappConfig sampleData.files true (fun _ => [])
        sampleWorld).1 =
      .ok [{ path := "", cid := ⟨"QmT78zSuBmuS4z925WZfrqQ1qHaJ56DQaTfyMUF7F8ff5o"⟩, size := 0
             digest := "0x46d44814b9c5af141c3aaab7c05dc5e844ead5f91f12858b021eba45768b4c0e"
             hashFunction := some 0x12, digestLength := some 0x20 }] :=
  (ipfsUpload_result_set sampleEnv sampleWorld.dappConfig sampleData.files true (fun _ => [])
    sampleWorld
    [{ path := "a.txt", cid := ⟨"QmYwAPJzv5CZsnA625s3Xf2nemtYgPpHdWEz79ojWnPbdG"⟩, size := 2 },
      { path := "b.txt", cid := ⟨"QmYwAPJzv5CZsnA625s3Xf2nemtYgPpHdWEz79ojWnPbdG"⟩, size := 1 },
      { path := "", cid := ⟨"QmT78zSuBmuS4z925WZfrqQ1qHaJ56DQaTfyMUF7F8ff5o"⟩, size := 0 }]
    _ (by decide) rfl rfl).mpr ⟨by decide, by decide⟩

/-- C1 (as stated, refuted): asked to wrap two files in a directory, the store yields the two
file entries and the directory entry with the empty path; `ipfsUpload` returns the directory
entry alone. -/
theorem ipfsUpload_keeps_only_wrapper :
    (sampleEnv.ipfsAdd [.ipfsClient none]
        (sampleData.files.map (fun file => { path := file.name, content := file }))
        { wrapWithDirectory := true, pin := true, progress := fun _ => [] }).1.map (·.path) =
      ["a.txt", "b.txt", ""] ∧
    (ipfsUpload sampleEnv sampleWorld.dappConfig sampleData.files true (fun _ => [])
        sampleWorld).1.map (List.map (·.path)) = .ok [""] := by
  constructor <;> decide

/-! ## Multihash codec -/

theorem hexDigit_isLowerHex (n : Nat) (h : n < 16) : isLowerHex (hexDigit n) = true := by
  interval_cases n <;> decide

theorem toHex_length (b : Buffer) : (Buffer.toHex b).length = 2 * b.length := by
  induction b with
  | nil => rfl
  | cons x xs ih =>
    simp only [Buffer.toHex, String.length, List.flatMap_cons, List.length_append,
      List.length_cons] at ih ⊢
    simp only [byteToHex, List.length_cons, List.length_nil]
    omega

theorem toHex_isLowerHex (b : Buffer) : ∀ c ∈ (Buffer.toHex b).data, isLowerHex c = true := by
  intro c hc
  simp only [Buffer.toHex, List.mem_flatMap] at hc
  obtain ⟨x, -, hx⟩ := hc
  simp only [byteToHex, List.mem_cons, List.mem_singleton, List.not_mem_nil, or_false] at hx
  rcases hx with rfl | rfl
  · exact hexDigit_isLowerHex _ (by omega)
  · exact hexDigit_isLowerHex _ (by omega)

/-- C2 (amended): when the decoded bytes `b` are at least two, `_decodeMultihash` returns
`hashFunction = b[0]`, `digestLength = b[1]` and the digest `0x` followed by the hexadecimal
text of the bytes `b[2..]`: two characters for the marker and two digits of `0-9a-f` for each
byte, hence 66 characters for the 34 bytes of a sha2-256 multihash. -/
theorem decodeMultihash_decomposition (bs58_decode : String → Except JSError Buffer)
    (multihash : String) (b : Buffer) (hdec : bs58_decode multihash = .ok b)
    (hlen : 2 ≤ b.length) :
    ∃ d, _decodeMultihash bs58_decode multihash = .ok d ∧
      d.hashFunction = some b[0] ∧ d.digestLength = some b[1] ∧
      d.digest = "0x" ++ Buffer.toHex (b.drop 2) ∧
      d.digest.length = 2 + 2 * (b.length - 2) ∧
      (∀ c ∈ (Buffer.toHex (b.drop 2)).data, isLowerHex c = true) ∧
      (b.length = 34 → d.digest.length = 66) := by
  refine ⟨{ digest := "0x" ++ Buffer.toHex (b.drop 2), hashFunction := b.get? 0
            digestLength := b.get? 1 }, by simp only [_decodeMultihash, hdec], ?_, ?_, rfl, ?_,
    toHex_isLowerHex _, ?_⟩
  · simp [List.get?_eq_getElem?, List.getElem?_eq_getElem]
  · simp [List.get?_eq_getElem?, List.getElem?_eq_getElem]
  · simp only [String.length_append, toHex_length, List.length_drop]
    rfl
  · intro h
    simp only [String.length_append, toHex_length, List.length_drop, h]
    rfl

theorem decodeMultihash_decomposition_witness :
    ∃ d, _decodeMultihash bs58.decode "QmYwAPJzv5CZsnA625s3Xf2nemtYgPpHdWEz79ojWnPbdG" = .ok d ∧
      d.hashFunction = some 0x12 ∧ d.digestLength = some 0x20 ∧
      d.digest = "0x9d6c2be50f706953479ab9df2ce3edca90b68053c00b3004b7f0accbe1e8eedf" ∧
      d.digest.length = 66 :=
  match decodeMultihash_decomposition bs58.decode
      "QmYwAPJzv5CZsnA625s3Xf2nemtYgPpHdWEz79ojWnPbdG"
      [0x12, 0x20, 0x9d, 0x6c, 0x2b, 0xe5, 0x0f, 0x70, 0x69, 0x53, 0x47, 0x9a, 0xb9, 0xdf, 0x2c,
        0xe3, 0xed, 0xca, 0x90, 0xb6, 0x80, 0x53, 0xc0, 0x0b, 0x30, 0x04, 0xb7, 0xf0, 0xac, 0xcb,
        0xe1, 0xe8, 0xee, 0xdf] (by decide) (by decide) with
  | ⟨d, h, h0, h1, hd, _, _, h66⟩ => ⟨d, h, h0, h1, by rw [hd]; decide, h66 rfl⟩

/-- C2 (as stated, refuted): for a cid whose 34 decoded bytes start with `0x12, 0x20`, the
digest has 66 characters, not 64, and is not the hexadecimal text of the bytes after the first
two. -/
theorem decodeMultihash_digest_is_marked :
    (bs58.decode "QmYwAPJzv5CZsnA625s3Xf2nemtYgPpHdWEz79ojWnPbdG").map (List.take 2) =
      .ok [0x12, 0x20] ∧
    (bs58.decode "QmYwAPJzv5CZsnA625s3Xf2nemtYgPpHdWEz79ojWnPbdG").map List.length = .ok 34 ∧
    (_decodeMultihash bs58.decode "QmYwAPJzv5CZsnA625s3Xf2nemtYgPpHdWEz79ojWnPbdG").map
        (·.digest.length) = .ok 66 ∧
    (_decodeMultihash bs58.decode "QmYwAPJzv5CZsnA625s3Xf2nemtYgPpHdWEz79ojWnPbdG").map
        (·.digest) ≠
      (bs58.decode "QmYwAPJzv5CZsnA625s3Xf2nemtYgPpHdWEz79ojWnPbdG").map
        (fun b => Buffer.toHex (b.drop 2)) := by
  refine ⟨?_, ?_, ?_, ?_⟩ <;> decide

theorem bs58_digits_none_iff (s : List Char) :
    bs58.digits? s = none ↔ ∃ c ∈ s, c ∉ bs58.ALPHABET := by
  have hd : ∀ c, bs58.digit? c = none ↔ c ∉ bs58.ALPHABET := by
    intro c
    have hl : bs58.ALPHABET.length = 58 := by decide
    simp only [bs58.digit?, ← hl, ← List.indexOf_lt_length]
    by_cases h : c ∈ bs58.ALPHABET <;> simp [h]
  induction s with
  | nil => simp [bs58.digits?, List.mapM, List.mapM.loop]
  | cons c cs ih =>
    simp only [bs58.digits?] at ih
    simp only [bs58.digits?, List.mapM_cons, List.mem_cons, exists_eq_or_imp]
    cases h1 : bs58.digit? c with
    | none => simp [(hd c).mp h1]
    | some d =>
      have hc : c ∈ bs58.ALPHABET := by
        by_contra h
        rw [(hd c).mpr h] at h1
        cases h1
      cases h2 : List.mapM bs58.digit? cs with
      | none => simpa [hc] using ih.mp h2
      | some ds =>
        have hn : ¬ ∃ c ∈ cs, c ∉ bs58.ALPHABET := by
          intro h
          have := ih.mpr h
          rw [h2] at this
          cases this
        simpa [hc] using hn

/-- C3 (amended): `_decodeMultihash` fails exactly when the base-58 decoder fails, with the
decoder's error; for the decoder over the Bitcoin alphabet, exactly when a character of the input
is outside the alphabet. An input that decodes to fewer than two bytes yields a decomposition
with the digest `0x`, where `hashFunction` is the byte there is, if any, and `digestLength` is
undefined. -/
theorem decodeMultihash_error_iff (bs58_decode : String → Except JSError Buffer)
    (multihash : String) :
    (∀ e, _decodeMultihash bs58_decode multihash = .error e ↔
      bs58_decode multihash = .error e) ∧
    ((∃ e, _decodeMultihash bs58.decode multihash = .error e) ↔
      ∃ c ∈ multihash.data, c ∉ bs58.ALPHABET) ∧
    (∀ b, bs58_decode multihash = .ok b → b.length < 2 →
      _decodeMultihash bs58_decode multihash =
        .ok { digest := "0x", hashFunction := b.head?, digestLength := none }) := by
  refine ⟨?_, ?_, ?_⟩
  · intro e
    cases h : bs58_decode multihash <;> simp [_decodeMultihash, h]
  · rw [← bs58_digits_none_iff]
    cases h : bs58.digits? multihash.data <;> simp [_decodeMultihash, bs58.decode, h]
  · intro b hb hlen
    simp only [_decodeMultihash, hb]
    match b, hlen with
    | [], _ => rfl
    | [x], _ => rfl

/-- C3 (as stated, refuted): the inputs `""` and `"1"` decode to zero bytes and to one byte, and
`_decodeMultihash` returns a decomposition for both. -/
theorem decodeMultihash_short_input :
    bs58.decode "" = .ok [] ∧
    _decodeMultihash bs58.decode "" =
      .ok { digest := "0x", hashFunction := none, digestLength := none } ∧
    bs58.decode "1" = .ok [0] ∧
    _decodeMultihash bs58.decode "1" =
      .ok { digest := "0x", hashFunction := some 0, digestLength := none } := by
  refine ⟨?_, ?_, ?_, ?_⟩ <;> decide

/-! ## Result envelopes of mutations and queries -/

theorem submissions_append (a b : List Call) :
    submissions (a ++ b) = submissions a ++ submissions b := by
  induction a with
  | nil => rfl
  | cons c cs ih => cases c <;> simp [submissions, ih]

theorem ipfsUpload_submissions (env : Env) (config : DappConfig) (files : List File)
    (wrapWithDirectory : Bool) (progressCallback : ProgressCallback) (w : World) :
    submissions (ipfsUpload env config files wrapWithDirectory progressCallback w).2.calls =
      submissions w.calls := by
  unfold ipfsUpload
  by_cases h : files.length < 1
  · simp [h]
  · simp only [h, if_false]
    cases env.ipfsClient w.calls config.ipfs <;>
      simp [World.record, submissions_append, submissions]

theorem collect_proposals (ipfsResult : List UploadResult) (w : World) :
    (initializeProposals.collect ipfsResult w).1 = ipfsResult.map (·.cid.string) ∧
      submissions (initializeProposals.collect ipfsResult w).2.calls = submissions w.calls ∧
      (initializeProposals.collect ipfsResult w).2.dappConfig = w.dappConfig := by
  have key : ∀ (l : List UploadResult) (acc : List String × World),
      (l.foldl (fun acc file =>
          (acc.1 ++ [file.cid.string], acc.2.record (.consoleLog "IPFS file" file))) acc).1 =
        acc.1 ++ l.map (·.cid.string) ∧
      submissions (l.foldl (fun acc file =>
          (acc.1 ++ [file.cid.string], acc.2.record (.consoleLog "IPFS file" file)))
            acc).2.calls = submissions acc.2.calls ∧
      (l.foldl (fun acc file =>
          (acc.1 ++ [file.cid.string], acc.2.record (.consoleLog "IPFS file" file)))
            acc).2.dappConfig = acc.2.dappConfig := by
    intro l
    induction l with
    | nil => intro acc; simp
    | cons x xs ih =>
      intro acc
      simp only [List.foldl_cons, List.map_cons]
      obtain ⟨h1, h2, h3⟩ := ih (acc.1 ++ [x.cid.string], acc.2.record (.consoleLog "IPFS file" x))
      refine ⟨by rw [h1]; simp, ?_, ?_⟩
      · rw [h2]
        simp [World.record, submissions_append, submissions]
      · rw [h3]
        rfl
  simpa [initializeProposals.collect] using key ipfsResult ([], w)

/-- C4 (amended): when the gateway accepts the submission and its call data carry the
transaction id `id`, each of `initializeAccount`, `initializeProposals` (after a successful
upload), `issueBallot` and `vote` returns an envelope whose type is the string `tx-hash`, whose
label is `Transaction Hash` and whose result is `id`. -/
theorem mutation_envelope (env : Env) (data : Data) (w : World) (id : JSVal) :
    (∀ r, env.post w.calls
          { config := w.dappConfig, imports := [("DappState", data.account)]
            roles := { proposer := some data.account, authorizers := none } }
          "basic_nft_initializeAccount" none = .ok r →
        r.callData.transactionId = .ok id →
        (initializeAccount env data w).1 =
          .ok { type := "tx-hash", label := "Transaction Hash", result := id }) ∧
    (∀ r ipfsResult w1,
        ipfsUpload env
            { w.dappConfig with
              ipfs := some { host := "ipfs.infura.io", protocol := "https", port := 5001 } }
            data.files true (fun bytes => [.num bytes])
            { w with
              dappConfig :=
                { w.dappConfig with
                  ipfs := some { host := "ipfs.infura.io", protocol := "https", port := 5001 } } }
          = (.ok ipfsResult, w1) →
        env.post (initializeProposals.collect ipfsResult w1).2.calls
          { config :=
              { w.dappConfig with
                ipfs := some { host := "ipfs.infura.io", protocol := "https", port := 5001 } }
            imports := [("DappState", data.admin)]
            roles := { proposer := some data.admin, authorizers := none } }
          "ballot_initializeProposals"
          (some [("proposals",
            .typed (.arr (ipfsResult.map (fun f => .str f.cid.string))) (.Array .String))]) =
          .ok r →
        r.callData.transactionId = .ok id →
        (initializeProposals env data w).1 =
          .ok { type := "tx-hash", label := "Transaction Hash", result := id }) ∧
    (∀ r, env.post w.calls
          { config := w.dappConfig, imports := [("DappState", data.admin)]
            roles := { proposer := some data.admin
                       authorizers := some [data.admin, data.voter] } }
          "ballot_issueBallot" none = .ok r →
        r.callData.transactionId = .ok id →
        (issueBallot env data w).1 =
          .ok { type := "tx-hash", label := "Transaction Hash", result := id }) ∧
    (∀ r, env.post w.calls
          { config := w.dappConfig, imports := [("DappState", data.voter)]
            roles := { proposer := some data.voter, authorizers := none } }
          "ballot_vote"
          (some [("proposalVotes",
            .typed (.arr [env.Number data.proposalIndex]) (.Array .UInt64))]) = .ok r →
        r.callData.transactionId = .ok id →
        (vote env data w).1 =
          .ok { type := "tx-hash", label := "Transaction Hash", result := id }) := by
  refine ⟨?_, ?_, ?_, ?_⟩
  · intro r h hid
    simp only [initializeAccount, Blockchain.post, getConfig, h, hid, DAPP_RESULT_TX_HASH]
  · intro r ipfsResult w1 hup h hid
    have hp := (collect_proposals ipfsResult w1).1
    simp only [initializeProposals, getConfig, hup, Blockchain.post]
    rw [hp, List.map_map]
    simp only [Function.comp_def, h, hid, DAPP_RESULT_TX_HASH]
  · intro r h hid
    simp only [issueBallot, Blockchain.post, getConfig, h, hid, DAPP_RESULT_TX_HASH]
  · intro r h hid
    simp only [vote, Blockchain.post, getConfig, h, hid, DAPP_RESULT_TX_HASH]

theorem mutation_envelope_witness :
    (initializeAccount sampleEnv sampleData sampleWorld).1 =
        .ok { type := "tx-hash", label := "Transaction Hash", result := .str "f00d" } ∧
      (initializeProposals sampleEnv sampleData sampleWorld).1 =
        .ok { type := "tx-hash", label := "Transaction Hash", result := .str "f00d" } ∧
      (issueBallot sampleEnv sampleData sampleWorld).1 =
        .ok { type := "tx-hash", label := "Transaction Hash", result := .str "f00d" } ∧
      (vote sampleEnv sampleData sampleWorld).1 =
        .ok { type := "tx-hash", label := "Transaction Hash", result := .str "f00d" } :=
  ⟨(mutation_envelope sampleEnv sampleData sampleWorld (.str "f00d")).1 _ rfl rfl,
    (mutation_envelope sampleEnv sampleData sampleWorld (.str "f00d")).2.1 _ _ _ rfl rfl rfl,
    (mutation_envelope sampleEnv sampleData sampleWorld (.str "f00d")).2.2.1 _ rfl rfl,
    (mutation_envelope sampleEnv sampleData sampleWorld (.str "f00d")).2.2.2 _ rfl rfl⟩

/-- C4 (as stated, refuted): for a submission accepted with the transaction id `f00d`, the
envelope of `initializeAccount` has the type `tx-hash`, which is not the string
`transaction-hash`. -/
theorem mutation_type_is_tx_hash :
    (initializeAccount sampleEnv sampleData sampleWorld).1.map (·.type) = .ok "tx-hash" ∧
      (initializeAccount sampleEnv sampleData sampleWorld).1.map (·.type) ≠
        .ok "transaction-hash" ∧
      DAPP_RESULT_TX_HASH ≠ "transaction-hash" := by
  refine ⟨?_, ?_, ?_⟩ <;> decide

/-- C5: when the call data of the gateway are absent (`undefined`, `null` or another falsy
value), `getIDs` returns the type `array` with the empty array as result, while
`getProposalList` returns the type `array` with the call data themselves as result. For call data
`undefined` the result of `getProposalList` is `undefined`, which is not the empty array. -/
theorem query_without_call_data :
    (∀ (env : Env) (data : Data) (w : World) (r : GatewayResult),
      env.get w.calls
          { config := w.dappConfig, imports := [("DappState", data.account)]
            roles := { proposer := some data.account, authorizers := none } }
          "basic_nft_getIDs" (some [("account", .plain (.str ("0x" ++ data.account)))]) = .ok r →
        r.callData.truthy = false →
        (getIDs env data w).1 = .ok { type := "array", label := "NFT IDs", result := .arr [] }) ∧
    (∀ (env : Env) (data : Data) (w : World) (r : GatewayResult),
      env.get w.calls
          { config := w.dappConfig, imports := [("DappState", data.ballotOwner)]
            roles := { proposer := none, authorizers := none } }
          "ballot_proposalList" none = .ok r →
        (getProposalList env data w).1 =
          .ok { type := "array", label := "Proposals", result := r.callData
                formatter := some ["Text-20-5"] }) ∧
    (getIDs sampleEnv sampleData sampleWorld).1 =
        .ok { type := "array", label := "NFT IDs", result := .arr [] } ∧
    (getProposalList sampleEnv sampleData sampleWorld).1 =
        .ok { type := "array", label := "Proposals", result := .undefined
              formatter := some ["Text-20-5"] } ∧
    JSVal.undefined ≠ JSVal.arr [] := by
  refine ⟨?_, ?_, rfl, rfl, fun h => by cases h⟩
  · intro env data w r h hf
    simp only [getIDs, Blockchain.get, getConfig, h, JSVal.or, hf, Bool.false_eq_true, if_false,
      DAPP_RESULT_ARRAY]
  · intro env data w r h
    simp only [getProposalList, Blockchain.get, getConfig, h, DAPP_RESULT_ARRAY]

/-! ## Event delivery -/

theorem lookup_cons_ite (k0 : String) (x : JSVal) (es : List (String × JSVal)) (k : String) :
    List.lookup k ((k0, x) :: es) = if k = k0 then some x else List.lookup k es := by
  rw [List.lookup_cons]
  by_cases h : k = k0
  · simp [h]
  · have : (k == k0) = false := by simpa using h
    simp [this, h]

theorem setProp_fresh (l : List (String × JSVal)) (key : String) (value : JSVal)
    (h : key ∉ l.map (·.1)) : setProp l key value = l ++ [(key, value)] := by
  induction l with
  | nil => rfl
  | cons p rest ih =>
    obtain ⟨k0, x⟩ := p
    simp only [List.map_cons, List.mem_cons, not_or] at h
    have hb : (k0 == key) = false := by simpa using fun e => h.1 e.symm
    simp [setProp, hb, ih h.2]

theorem lookup_of_mem_nodup (props : List (String × JSVal)) (h : (props.map (·.1)).Nodup) :
    ∀ p ∈ props, props.lookup p.1 = some p.2 := by
  induction props with
  | nil => intro p hp; cases hp
  | cons q qs ih =>
    intro p hp
    obtain ⟨k0, x⟩ := q
    simp only [List.map_cons, List.nodup_cons] at h
    rw [lookup_cons_ite]
    rcases List.mem_cons.mp hp with rfl | hp
    · simp
    · have hne : p.1 ≠ k0 := by
        intro e
        exact h.1 (e ▸ List.mem_map_of_mem _ hp)
      simp [hne, ih h.2 p hp]

theorem lookup_none_of_not_mem (l : List (String × JSVal)) (key : String)
    (h : key ∉ l.map (·.1)) : l.lookup key = none := by
  induction l with
  | nil => rfl
  | cons p rest ih =>
    obtain ⟨k0, x⟩ := p
    simp only [List.map_cons, List.mem_cons, not_or] at h
    rw [lookup_cons_ite, if_neg h.1, ih h.2]

theorem loop_named (a : JSVal) (rest : List (String × JSVal)) :
    ∀ (own : List (String × JSVal)) (po : Option JSVal),
      (own.map (·.1) ++ rest.map (·.1)).Nodup →
      "__proto__" ∉ own.map (·.1) →
      (po ≠ none → "__proto__" ∉ rest.map (·.1)) →
      (∀ p ∈ rest, a.member p.1 = p.2) →
      getObjectNamedProperties.loop a (rest.map (·.1)) { props := own, proto := po } =
        { props := own ++ rest.filter (fun p => !onlyDigits p.1 && p.1 != "__proto__")
          proto :=
            match rest.lookup "__proto__" with
            | some v => if v.isObjectOrNull then some v else po
            | none => po } := by
  induction rest with
  | nil => intro own po _ _ _ _; simp [getObjectNamedProperties.loop]
  | cons p ps ih =>
    intro own po hnd hown hpo hmem
    obtain ⟨k, v⟩ := p
    have hv : a.member k = v := hmem (k, v) (List.mem_cons_self _ _)
    have hps : ∀ q ∈ ps, a.member q.1 = q.2 := fun q hq => hmem q (List.mem_cons_of_mem _ hq)
    have hnd' : (own.map (·.1) ++ ps.map (·.1)).Nodup := by
      simp only [List.map_cons] at hnd
      exact hnd.sublist (List.Sublist.append_left (List.sublist_cons_self _ _) _)
    have hk_ps : k ∉ ps.map (·.1) := by
      simp only [List.map_cons] at hnd
      have h2 := (List.nodup_append.mp hnd).2.1
      exact (List.nodup_cons.mp h2).1
    have hk_own : k ∉ own.map (·.1) := by
      intro hin
      simp only [List.map_cons] at hnd
      exact (List.nodup_append.mp hnd).2.2 hin (List.mem_cons_self _ _)
    have hloop : getObjectNamedProperties.loop a (List.map (·.1) ((k, v) :: ps))
          { props := own, proto := po } =
        getObjectNamedProperties.loop a (ps.map (·.1))
          (if !onlyDigits k then NewObject.assign { props := own, proto := po } k v
            else { props := own, proto := po }) := by
      simp only [getObjectNamedProperties.loop, List.map_cons, List.foldl_cons, hv]
    rw [hloop]
    by_cases hd : onlyDigits k = true
    · have hne : k ≠ "__proto__" := by
        intro e
        rw [e] at hd
        exact absurd hd (by decide)
      have hb : (k != "__proto__") = true := by simpa using hne
      simp only [hd, Bool.not_true, Bool.false_eq_true, if_false]
      rw [ih own po hnd' hown (fun h => fun hin => hpo h (List.mem_cons_of_mem _ hin)) hps]
      have hl : List.lookup "__proto__" ((k, v) :: ps) = List.lookup "__proto__" ps := by
        rw [lookup_cons_ite, if_neg (fun e => hne e.symm)]
      simp [List.filter_cons, hd, hl]
    · have hd' : onlyDigits k = false := by simpa using hd
      simp only [hd', Bool.not_false, if_true]
      by_cases hk : k = "__proto__"
      · subst hk
        have hpo' : po = none := by
          by_contra h
          exact hpo h (List.mem_cons_self _ _)
        subst hpo'
        have hrun : NewObject.runsProtoSetter { props := own, proto := none } = true := by
          simp [NewObject.runsProtoSetter, lookup_none_of_not_mem own "__proto__" hown]
        have hl : List.lookup "__proto__" (("__proto__", v) :: ps) = some v := by
          rw [lookup_cons_ite, if_pos rfl]
        have hlps : List.lookup "__proto__" ps = none :=
          lookup_none_of_not_mem ps "__proto__" hk_ps
        by_cases hobj : v.isObjectOrNull = true
        · have hassign : NewObject.assign { props := own, proto := none } "__proto__" v =
              { props := own, proto := some v } := by
            simp [NewObject.assign, hrun, hobj]
          rw [hassign, ih own (some v) hnd' hown (fun _ => hk_ps) hps]
          simp [List.filter_cons, hd', hl, hlps, hobj]
        · have hobj' : v.isObjectOrNull = false := by simpa using hobj
          have hassign : NewObject.assign { props := own, proto := none } "__proto__" v =
              { props := own, proto := none } := by
            simp [NewObject.assign, hrun, hobj']
          rw [hassign, ih own none hnd' hown (fun _ => hk_ps) hps]
          simp [List.filter_cons, hd', hl, hlps, hobj']
      · have hb : (k == "__proto__") = false := by simpa using hk
        have hassign : NewObject.assign { props := own, proto := po } k v =
            { props := own ++ [(k, v)], proto := po } := by
          simp [NewObject.assign, hb, setProp_fresh own k v hk_own]
        have hl : List.lookup "__proto__" ((k, v) :: ps) = List.lookup "__proto__" ps := by
          rw [lookup_cons_ite, if_neg (fun e => hk e.symm)]
        have hown' : "__proto__" ∉ (own ++ [(k, v)]).map (·.1) := by
          simp only [List.map_append, List.map_cons, List.map_nil, List.mem_append,
            List.mem_singleton, not_or]
          exact ⟨hown, fun e => hk e.symm⟩
        rw [hassign, ih (own ++ [(k, v)]) po (by simpa using hnd) hown'
          (fun h => fun hin => hpo h (List.mem_cons_of_mem _ hin)) hps]
        simp [List.filter_cons, hd', hl, hk]

/-- C7: for an event payload object with the distinct keys of `props`, `getObjectNamedProperties`
returns an object whose own properties are, in the order of the payload, the properties of the
payload whose key is neither a non-empty run of decimal digits nor `__proto__`, each with its
value. The property `__proto__` of the payload is not kept: the assignment runs the setter of
`Object.prototype`, which makes an object or `null` the prototype of the result and ignores any
other value. For a payload without the key `__proto__` the result is exactly the properties with
a key that is not a run of digits, as for `{0: 'x', 1: 'y', name: 'Alice'}`; the payload
`{"__proto__": "x", "name": "Alice"}` is returned as `{name: 'Alice'}`. -/
theorem getObjectNamedProperties_named :
    (∀ props : List (String × JSVal), (props.map (·.1)).Nodup →
      getObjectNamedProperties (.obj props) =
        NewObject.toJSVal
          { props := props.filter (fun p => !onlyDigits p.1 && p.1 != "__proto__")
            proto :=
              match props.lookup "__proto__" with
              | some v => if v.isObjectOrNull then some v else none
              | none => none }) ∧
    (∀ props : List (String × JSVal), (props.map (·.1)).Nodup →
      "__proto__" ∉ props.map (·.1) →
      getObjectNamedProperties (.obj props) = .obj (props.filter (fun p => !onlyDigits p.1))) ∧
    getObjectNamedProperties
        (.obj [("0", .str "x"), ("1", .str "y"), ("name", .str "Alice")]) =
      .obj [("name", .str "Alice")] ∧
    getObjectNamedProperties (.obj [("__proto__", .str "x"), ("name", .str "Alice")]) =
      .obj [("name", .str "Alice")] ∧
    getObjectNamedProperties
        (.obj [("__proto__", .obj [("admin", .bool true)]), ("name", .str "Alice")]) =
      .objProto [("name", .str "Alice")] (.obj [("admin", .bool true)]) := by
  have main : ∀ props : List (String × JSVal), (props.map (·.1)).Nodup →
      getObjectNamedProperties (.obj props) =
        NewObject.toJSVal
          { props := props.filter (fun p => !onlyDigits p.1 && p.1 != "__proto__")
            proto :=
              match props.lookup "__proto__" with
              | some v => if v.isObjectOrNull then some v else none
              | none => none } := by
    intro props hnd
    have h := loop_named (.obj props) props [] none (by simpa using hnd) (by simp)
      (fun h => absurd rfl h)
      (fun p hp => by simp [JSVal.member, lookup_of_mem_nodup props hnd p hp])
    simp only [getObjectNamedProperties, JSVal.forInKeys, NewObject.empty]
    rw [h]
    simp
  refine ⟨main, ?_, ?_, ?_, ?_⟩
  · intro props hnd hno
    rw [main props hnd, lookup_none_of_not_mem props "__proto__" hno]
    have hf : props.filter (fun p => !onlyDigits p.1 && p.1 != "__proto__") =
        props.filter (fun p => !onlyDigits p.1) := by
      apply List.filter_congr
      intro p hp
      have hne : p.1 ≠ "__proto__" := fun e => hno (e ▸ List.mem_map_of_mem _ hp)
      simp [hne]
    simp only [NewObject.toJSVal, hf]
  · rw [main _ (by decide)]
    rfl
  · rw [main _ (by decide)]
    rfl
  · rw [main _ (by decide)]
    rfl

/-- C8: for every delivery `(error, result)` the handler registered by `addEventHandler` acts as
one invocation of the callback with one envelope, whatever the callback; recorded as a trace,
the invocations are that envelope alone. The envelope carries the subscribed event name; it has
the type `error` and the delivered error as result exactly when the delivery carries an error
(a truthy first argument), and otherwise the type `object` and the named properties of the
delivered result. -/
theorem eventHandler_invokes_once (event : String) (error result : JSVal) :
    ∃ envelope : Envelope,
      (∀ (σ : Type) (callback : Envelope → σ → σ),
        addEventHandler.handler event callback error result = callback envelope) ∧
      addEventHandler.handler event (fun e trace => trace ++ [e]) error result [] = [envelope] ∧
      envelope.event = some event ∧
      (envelope.type = "error" ↔ error.truthy = true) ∧
      (error.truthy = true → envelope.type = "error" ∧ envelope.result = error) ∧
      (error.truthy = false →
        envelope.type = "object" ∧ envelope.result = getObjectNamedProperties result) := by
  by_cases h : error.truthy = true
  · refine ⟨{ event := some event, type := DAPP_RESULT_ERROR, label := "Error Message"
              result := error }, ?_, ?_, rfl, ?_, ?_, ?_⟩
    · intro σ callback
      simp only [addEventHandler.handler, h, if_true]
    · simp only [addEventHandler.handler, h, if_true, List.nil_append]
    · simp only [h, iff_true]
      rfl
    · intro _
      exact ⟨rfl, rfl⟩
    · intro h'
      rw [h] at h'
      cases h'
  · have hf : error.truthy = false := by simpa using h
    refine ⟨{ event := some event, type := DAPP_RESULT_OBJECT, label := "Event " ++ event
              result := getObjectNamedProperties result }, ?_, ?_, rfl, ?_, ?_, ?_⟩
    · intro σ callback
      simp only [addEventHandler.handler, hf, Bool.false_eq_true, if_false]
    · simp only [addEventHandler.handler, hf, Bool.false_eq_true, if_false, List.nil_append]
    · simp only [hf, Bool.false_eq_true, iff_false]
      decide
    · intro h'
      exact absurd h' h
    · intro _
      exact ⟨rfl, rfl⟩

/-! ## The composite operation -/

/-- C9: `initializeProposals` first runs `ipfsUpload` on the files, with the directory flag set
and the `ipfs` entry of the configuration replaced. When that upload fails with `e`, the
operation fails with `e` in the world the upload left, and the log has the submissions it had
before. When the upload returns `ipfsResult`, the log has one more submission, the last:
`ballot_initializeProposals`, whose `proposals` argument is the array of the cid strings of
`ipfsResult` in the same order, typed as an array of strings. -/
theorem initializeProposals_upload_then_submit (env : Env) (data : Data) (w : World) :
    (∀ e w1,
        ipfsUpload env
            { w.dappConfig with
              ipfs := some { host := "ipfs.infura.io", protocol := "https", port := 5001 } }
            data.files true (fun bytes => [.num bytes])
            { w with
              dappConfig :=
                { w.dappConfig with
                  ipfs := some { host := "ipfs.infura.io", protocol := "https", port := 5001 } } }
          = (.error e, w1) →
        initializeProposals env data w = (.error e, w1) ∧
          submissions (initializeProposals env data w).2.calls = submissions w.calls) ∧
    (∀ ipfsResult w1,
        ipfsUpload env
            { w.dappConfig with
              ipfs := some { host := "ipfs.infura.io", protocol := "https", port := 5001 } }
            data.files true (fun bytes => [.num bytes])
            { w with
              dappConfig :=
                { w.dappConfig with
                  ipfs := some { host := "ipfs.infura.io", protocol := "https", port := 5001 } } }
          = (.ok ipfsResult, w1) →
        submissions (initializeProposals env data w).2.calls =
          submissions w.calls ++
            [({ config :=
                  { w.dappConfig with
                    ipfs := some { host := "ipfs.infura.io", protocol := "https", port := 5001 } }
                imports := [("DappState", data.admin)]
                roles := { proposer := some data.admin, authorizers := none } },
              "ballot_initializeProposals",
              some [("proposals",
                .typed (.arr (ipfsResult.map (fun f => .str f.cid.string)))
                  (.Array .String))])]) := by
  constructor
  · intro e w1 hup
    have hs := ipfsUpload_submissions env
      { w.dappConfig with
        ipfs := some { host := "ipfs.infura.io", protocol := "https", port := 5001 } }
      data.files true (fun bytes => [.num bytes])
      { w with
        dappConfig :=
          { w.dappConfig with
            ipfs := some { host := "ipfs.infura.io", protocol := "https", port := 5001 } } }
    rw [hup] at hs
    have hinit : initializeProposals env data w = (.error e, w1) := by
      simp only [initializeProposals, getConfig, hup]
    rw [hinit]
    exact ⟨rfl, hs⟩
  · intro ipfsResult w1 hup
    have hs := ipfsUpload_submissions env
      { w.dappConfig with
        ipfs := some { host := "ipfs.infura.io", protocol := "https", port := 5001 } }
      data.files true (fun bytes => [.num bytes])
      { w with
        dappConfig :=
          { w.dappConfig with
            ipfs := some { host := "ipfs.infura.io", protocol := "https", port := 5001 } } }
    rw [hup] at hs
    obtain ⟨hp, hc, -⟩ := collect_proposals ipfsResult w1
    simp only [initializeProposals, getConfig, hup, Blockchain.post]
    rw [hp, List.map_map]
    simp only [Function.comp_def]
    have hfinal : ∀ (x : Except JSError GatewayResult) (w3 : World),
        (match (x, w3) with
          | (.error e, w3) => ((.error e : Except JSError Envelope), w3)
          | (.ok result, w3) =>
            match result.callData.transactionId with
            | .error e => (.error e, w3)
            | .ok transactionId =>
              (.ok { type := DAPP_RESULT_TX_HASH, label := "Transaction Hash"
                     result := transactionId }, w3)).2 = w3 := by
      intro x w3
      cases x with
      | error e => rfl
      | ok r => 
        simp only
        cases r.callData.transactionId <;> rfl
    rw [hfinal]
    simp only [World.record, submissions_append, hc, hs, submissions]

theorem initializeProposals_upload_then_submit_witness :
    (initializeProposals failingEnv sampleData sampleWorld).1 =
        .error (.gatewayError "store unreachable") ∧
      submissions (initializeProposals failingEnv sampleData sampleWorld).2.calls = [] ∧
      submissions (initializeProposals sampleEnv sampleData sampleWorld).2.calls =
        [({ config :=
              { ipfs := some { host := "ipfs.infura.io", protocol := "https", port := 5001 }
                settings := [("httpUri", "http://localhost:8080")] }
            imports := [("DappState", "01cf0e2f2f715450")]
            roles := { proposer := some "01cf0e2f2f715450", authorizers := none } },
          "ballot_initializeProposals",
          some [("proposals",
            .typed (.arr [.str "QmT78zSuBmuS4z925WZfrqQ1qHaJ56DQaTfyMUF7F8ff5o"])
              (.Array .String))])] :=
  ⟨congrArg Prod.fst
      ((initializeProposals_upload_then_submit failingEnv sampleData sampleWorld).1 _ _ rfl).1,
    ((initializeProposals_upload_then_submit failingEnv sampleData sampleWorld).1 _ _ rfl).2,
    (initializeProposals_upload_then_submit sampleEnv sampleData sampleWorld).2 _ _ rfl⟩

/-! ## Text helpers -/

theorem fromAscii_foldl (cs : List Char) :
    ∀ acc : List Char, cs.foldl fromAscii.step acc = acc ++ cs.flatMap (fromAscii.step []) := by
  induction cs with
  | nil => intro acc; simp
  | cons c cs ih =>
    intro acc
    rw [List.foldl_cons, ih, List.flatMap_cons, ← List.append_assoc]
    congr 1

set_option maxRecDepth 100000 in
theorem byte_digits (n : Fin 256) :
    (fromAscii.step [] (Char.ofNat n.val)).length = 2 ∧
      parseInt16 (fromAscii.step [] (Char.ofNat n.val)) = some (n.val : Int) := by
  revert n
  decide

theorem char_digits (c : Char) (h1 : 1 ≤ c.toNat) (h2 : c.toNat ≤ 255) :
    ∃ a b, fromAscii.step [] c = [a, b] ∧ ∀ str, toAscii.step str [a, b] = str ++ [c] := by
  obtain ⟨hl, hp⟩ := byte_digits ⟨c.toNat, by omega⟩
  simp only [Char.ofNat_toNat] at hl hp
  match hs : fromAscii.step [] c, hl with
  | [a, b], _ =>
    refine ⟨a, b, rfl, ?_⟩
    intro str
    rw [hs] at hp
    have hne : (some (c.toNat : Int) = some 0) = False := by
      simp only [Option.some.injEq, eq_iff_iff, iff_false]
      omega
    have hm : ((c.toNat : Int) % 65536).toNat = c.toNat := by omega
    simp only [toAscii.step, hp, hne, if_false, fromCharCode, hm, Char.ofNat_toNat]

theorem toAscii_zeros (k : Nat) (acc : List Char) :
    toAscii.loop (List.replicate (2 * k) '0') acc = acc := by
  induction k with
  | zero => rfl
  | succ k ih =>
    have : 2 * (k + 1) = (2 * k + 1) + 1 := by ring
    rw [this, List.replicate_succ, List.replicate_succ, toAscii.loop]
    have hz : toAscii.step acc ['0', '0'] = acc := by
      have : parseInt16 ['0', '0'] = some 0 := by decide
      simp [toAscii.step, this]
    rw [hz, ih]

theorem toAscii_loop_digits (k : Nat) (cs : List Char)
    (hcodes : ∀ c ∈ cs, 1 ≤ c.toNat ∧ c.toNat ≤ 255) :
    ∀ acc : List Char,
      toAscii.loop (cs.flatMap (fromAscii.step []) ++ List.replicate (2 * k) '0') acc =
        acc ++ cs := by
  induction cs with
  | nil => intro acc; simpa using toAscii_zeros k acc
  | cons c cs ih =>
    intro acc
    obtain ⟨a, b, hab, hstep⟩ := char_digits c (hcodes c (List.mem_cons_self _ _)).1
      (hcodes c (List.mem_cons_self _ _)).2
    rw [List.flatMap_cons, hab]
    show toAscii.loop
      (a :: b :: (cs.flatMap (fromAscii.step []) ++ List.replicate (2 * k) '0')) acc = _
    rw [toAscii.loop, hstep, ih (fun x hx => hcodes x (List.mem_cons_of_mem _ hx))]
    simp

theorem flatMap_digits_length (cs : List Char)
    (hcodes : ∀ c ∈ cs, 1 ≤ c.toNat ∧ c.toNat ≤ 255) :
    (cs.flatMap (fromAscii.step [])).length = 2 * cs.length := by
  induction cs with
  | nil => rfl
  | cons c cs ih =>
    obtain ⟨a, b, hab, -⟩ := char_digits c (hcodes c (List.mem_cons_self _ _)).1
      (hcodes c (List.mem_cons_self _ _)).2
    rw [List.flatMap_cons, hab, List.length_append,
      ih (fun x hx => hcodes x (List.mem_cons_of_mem _ hx))]
    simp only [List.length_cons, List.length_nil]
    omega

/-- C10: for a positive `padding` and a string `str` of at most `padding` characters that does
not start with `0x` and whose character codes are all between 1 and 255, `fromAscii` returns a
string of exactly `2 + 2 * padding` characters that starts with `0x`, and `toAscii` maps that
string back to `str`. -/
theorem fromAscii_toAscii (str : String) (padding : Nat) (hpad : 0 < padding)
    (hlen : str.length ≤ padding) (hstart : startsWith str "0x" = false)
    (hcodes : ∀ c ∈ str.data, 1 ≤ c.toNat ∧ c.toNat ≤ 255) :
    ∃ hex, fromAscii str padding = .ok hex ∧ hex.length = 2 + 2 * padding ∧
      startsWith hex "0x" = true ∧ toAscii hex = str := by
  have hlen' : str.data.length ≤ padding := hlen
  have hfl := flatMap_digits_length str.data hcodes
  have hcount : ((padding : Int) * 2 -
      (("0x".data ++ str.data.flatMap (fromAscii.step [])).length : Int) + 2) =
        ((2 * (padding - str.data.length) : Nat) : Int) := by
    rw [List.length_append, hfl]
    simp only [String.data, List.length_cons, List.length_nil]
    omega
  refine ⟨String.mk ("0x".data ++ str.data.flatMap (fromAscii.step []) ++
    List.replicate (2 * (padding - str.data.length)) '0'), ?_, ?_, ?_, ?_⟩
  · have hp : (padding == 0) = false := by simpa using Nat.pos_iff_ne_zero.mp hpad
    have hgt : ¬ str.length > padding := by omega
    simp only [fromAscii, hstart, hp, Bool.or_self, Bool.false_eq_true, if_false, hgt,
      fromAscii_foldl, hcount]
    rw [if_neg (by omega), Int.toNat_ofNat]
  · simp only [String.length, List.length_append, hfl, List.length_replicate]
    simp only [String.data, List.length_cons, List.length_nil]
    omega
  · simp [startsWith]
  · have := toAscii_loop_digits (padding - str.data.length) str.data hcodes []
    simp only [toAscii]
    simp only [String.data, List.cons_append, List.nil_append, List.take_succ_cons,
      List.take_zero, beq_self_eq_true, if_true, List.drop_succ_cons, List.drop_zero] 
    simp only [String.data] at this
    rw [this]
    rfl

theorem fromAscii_toAscii_witness :
    ∃ hex, fromAscii "Alice" 8 = .ok hex ∧ hex.length = 2 + 2 * 8 ∧
      startsWith hex "0x" = true ∧ toAscii hex = "Alice" :=
  fromAscii_toAscii "Alice" 8 (by decide) (by decide) (by decide) (by decide)

/-! ## Condensed text -/

theorem substr_units (s : JSString) (start length : Nat) (h : start ≤ s.length) :
    substr s (start : Int) length = (s.drop start).take length := by
  have hneg : ¬ ((start : Int) < 0) := by omega
  simp only [substr, hneg, if_false, Int.toNat_ofNat]
  rw [Nat.min_eq_left h]

theorem utf16_dots : utf16 "..." = [46, 46, 46] := by
  decide

/-- C11: for a non-empty string `s`, given by its UTF-16 code units, and natural numbers `begin`
and `end`, `toCondensed` returns `s` itself when `s.length ≤ begin + end`. Otherwise it returns
the first `begin` code units of `s`, then `...`, then the last `end` code units of `s` (nothing
after the dots when `end = 0`): the two kept parts have exactly `begin` and `end` code units,
`s` is the first part, a non-empty middle and the last part, so the kept parts do not overlap,
and the result has `begin + 3 + end` code units. -/
theorem toCondensed_condenses (s : JSString) (begin end_ : Nat) (hs : s ≠ []) :
    (s.length ≤ begin + end_ → toCondensed s begin end_ = some s) ∧
    (begin + end_ < s.length →
      toCondensed s begin end_ =
          some (s.take begin ++ utf16 "..." ++ s.drop (s.length - end_)) ∧
        (end_ = 0 → toCondensed s begin end_ = some (s.take begin ++ utf16 "...")) ∧
        (s.take begin).length = begin ∧
        (s.drop (s.length - end_)).length = end_ ∧
        s = s.take begin ++ (s.drop begin).take (s.length - begin - end_) ++
          s.drop (s.length - end_) ∧
        0 < ((s.drop begin).take (s.length - begin - end_)).length ∧
        (s.take begin ++ utf16 "..." ++ s.drop (s.length - end_)).length =
          begin + 3 + end_) := by
  have hne : s.isEmpty = false := by
    cases s with
    | nil => exact absurd rfl hs
    | cons x xs => rfl
  have hpos : s.length ≠ 0 := by
    intro h
    exact hs (List.eq_nil_of_length_eq_zero h)
  constructor
  · intro h
    have hl : (s.length != 0) = true := by simpa using hpos
    simp only [toCondensed, hne, Bool.false_eq_true, if_false, hl, Bool.true_and,
      decide_eq_true_eq, h, if_true]
  · intro h
    have hnot : ¬ s.length ≤ begin + end_ := by omega
    have hpre : substr s 0 begin = s.take begin := by
      have := substr_units s 0 begin (Nat.zero_le _)
      simpa using this
    have hsuf : substr s ((s.length : Int) - (end_ : Int)) end_ = s.drop (s.length - end_) := by
      have hcast : ((s.length : Int) - (end_ : Int)) = ((s.length - end_ : Nat) : Int) := by
        omega
      rw [hcast, substr_units s (s.length - end_) end_ (by omega)]
      apply List.take_of_length_le
      rw [List.length_drop]
      omega
    have hsplit : s = s.take begin ++
        (s.drop begin).take (s.length - begin - end_) ++ s.drop (s.length - end_) := by
      have h1 : s.drop (s.length - end_) = (s.drop begin).drop (s.length - begin - end_) := by
        rw [List.drop_drop]
        congr 1
        omega
      rw [h1, List.append_assoc, List.take_append_drop, List.take_append_drop]
    have hzero : end_ = 0 →
        toCondensed s begin end_ = some (s.take begin ++ utf16 "...") := by
      intro he
      subst he
      simp only [toCondensed, hne, Bool.false_eq_true, if_false, decide_eq_true_eq, hnot,
        decide_False, Bool.and_false, bne_self_eq_false, hpre]
    have hres : toCondensed s begin end_ =
        some (s.take begin ++ utf16 "..." ++ s.drop (s.length - end_)) := by
      by_cases he : end_ = 0
      · rw [hzero he, he, Nat.sub_zero, List.drop_length, List.append_nil]
      · have he' : (end_ != 0) = true := by simpa using he
        simp only [toCondensed, hne, Bool.false_eq_true, if_false, decide_eq_true_eq, hnot,
          decide_False, Bool.and_false, he', if_true, hpre, hsuf]
    refine ⟨hres, hzero, ?_, ?_, hsplit, ?_, ?_⟩
    · rw [List.length_take]
      omega
    · rw [List.length_drop]
      omega
    · rw [List.length_take, List.length_drop]
      omega
    · rw [List.length_append, List.length_append, List.length_take, List.length_drop,
        utf16_dots]
      simp only [List.length_cons, List.length_nil]
      omega

theorem toCondensed_condenses_witness :
    toCondensed (utf16 "0x1234567890abcdef") 10 8 = some (utf16 "0x1234567890abcdef") ∧
      toCondensed (utf16 "0x1234567890abcdef") 6 4 = some (utf16 "0x1234...cdef") ∧
      toCondensed (utf16 "😀😀") 1 1 = some [0xD83D, 46, 46, 46, 0xDE00] :=
  ⟨(toCondensed_condenses (utf16 "0x1234567890abcdef") 10 8 (by decide)).1 (by decide),
    ((toCondensed_condenses (utf16 "0x1234567890abcdef") 6 4 (by decide)).2 (by decide)).1.trans
      (by decide),
    ((toCondensed_condenses (utf16 "😀😀") 1 1 (by decide)).2 (by decide)).1.trans (by decide)⟩

end DappLib
